import Mathlib

/-!
Shallow embedding of the f95-rss program (K0ng2/f95-rss).

The repository holds two revisions of the single-file program:
* `src/unnamed/part_000` — the JSON-API revision: a multi-table SQLite
  store (creator / game / cover / preview / tags / prefixes), per-record
  insert helpers, and a feed projector `fetchDataFromDB`.
* `src/main.go` — the RSS revision: a single `game` table, `parseData`
  extracting title/version with the regexp
  `\] (?<name>.*?) \[(?<version>.+)\]`, and `updateDatabase` looping over
  feed items.

Modelling conventions:
* SQLite tables become Lean lists of row structures; autoincrement keys
  are carried by explicit sequence counters.
* Timestamps are abstract instants (`Int`).  The SQL defaults and the
  `update_timestamp` trigger both write "now", modelled by an explicit
  `now : Int` argument; the driver round-trip (store text, scan, parse,
  `t.Local()`) is modelled as keeping the stored instant and shifting it
  by the process timezone offset `tz` (Go `time.Time.Local`).
* `log.Fatalf` (process termination) and a Go panic are modelled as the
  absence of a result: functions that can hit them return `Option` (or a
  completion flag), `none`/`false` meaning the process died there.
* Each SQL statement autocommits on its own (the Go code opens no
  transaction), so the states a concurrent reader can observe are the
  states after each single statement; `updateRecordTrace` lists them.
-/

namespace F95

/-- One decoded element of the JSON snapshot (`F95DATA` in part_000). -/
structure F95DATA where
  threadId : Int
  title : String
  creator : String
  version : String
  prefixes : List Int
  tags : List Int
  cover : String
  screens : List String
deriving Repr, DecidableEq

/-- A row of the `game` table of part_000 (`id` primary key; `created` and
`updated` from the SQL defaults / the `update_timestamp` trigger). -/
structure GameRow where
  id : Int
  title : String
  version : String
  creatorId : Int
  created : Int
  updated : Int
deriving Repr, DecidableEq

/-- A row of the `cover` or `preview` table: autoincrement `rowId`,
globally unique `url`, owning `gameId`. -/
structure AssetRow where
  rowId : Int
  url : String
  gameId : Int
deriving Repr, DecidableEq

/-- The SQLite store of part_000: one list per table, plus the
autoincrement sequences of `creator`, `cover` and `preview`. -/
structure DB where
  creators : List (Int × String)
  creatorSeq : Int
  games : List GameRow
  covers : List AssetRow
  coverSeq : Int
  previews : List AssetRow
  previewSeq : Int
  tags : List (Int × Int)
  prefixes : List (Int × Int)
deriving Repr, DecidableEq

/-- The freshly created store (`createDatabase`). -/
def DB.empty : DB :=
  { creators := [], creatorSeq := 0, games := [], covers := [], coverSeq := 0,
    previews := [], previewSeq := 0, tags := [], prefixes := [] }

/-- `insertCreator`: `INSERT INTO creator (name) VALUES (?) ON CONFLICT (name)
DO UPDATE SET name = name RETURNING id` — get-or-create by unique name,
returning the row id. -/
def insertCreator (db : DB) (creator : String) : Int × DB :=
  match db.creators.find? (fun c => c.2 = creator) with
  | some c => (c.1, db)
  | none =>
      let newId := db.creatorSeq + 1
      (newId, { db with creators := db.creators ++ [(newId, creator)],
                        creatorSeq := newId })

/-- `insertGame`: `insert into game (id, title, version, creator_id) values
(?, ?, ?, ?) on conflict (id) do update set title = excluded.title, version =
excluded.version, creator_id = excluded.creator_id`.  On first insert the SQL
defaults set `created` and `updated` to now; on conflict the
`update_timestamp` trigger fires on the UPDATE and sets `updated` to now,
leaving `created` alone — even when the written values equal the stored
ones (SQLite performs the UPDATE and fires the trigger regardless). -/
def insertGame (db : DB) (id : Int) (title version : String)
    (creatorId : Int) (now : Int) : DB :=
  if db.games.any (fun r => r.id = id) then
    { db with games := db.games.map (fun r =>
        if r.id = id then
          { r with title := title, version := version,
                   creatorId := creatorId, updated := now }
        else r) }
  else
    { db with games := db.games ++
        [{ id := id, title := title, version := version,
           creatorId := creatorId, created := now, updated := now }] }

/-- `insertCover`: `insert or ignore into cover (url, game_id) values (?, ?)`
— `url` is globally UNIQUE, so a url already present in the table (for any
game) makes the statement a complete no-op. -/
def insertCover (db : DB) (gameID : Int) (coverURL : String) : DB :=
  if db.covers.any (fun c => c.url = coverURL) then db
  else
    { db with
      covers := db.covers ++
        [{ rowId := db.coverSeq + 1, url := coverURL, gameId := gameID }],
      coverSeq := db.coverSeq + 1 }

/-- One iteration of the loop in `insertPreview`: `insert or ignore into
preview (url, game_id) values (?, ?)` with a globally UNIQUE `url`. -/
def insertPreviewOne (db : DB) (gameID : Int) (url : String) : DB :=
  if db.previews.any (fun c => c.url = url) then db
  else
    { db with
      previews := db.previews ++
        [{ rowId := db.previewSeq + 1, url := url, gameId := gameID }],
      previewSeq := db.previewSeq + 1 }

/-- `insertPreview`: inserts each screen url in order. -/
def insertPreview (db : DB) (gameID : Int) (previewURL : List String) : DB :=
  previewURL.foldl (fun d s => insertPreviewOne d gameID s) db

/-- One iteration of the loop in `insertTags`: `insert or ignore into tags
(game_id, tag_id) values (?, ?)` with PRIMARY KEY (game_id, tag_id). -/
def insertTagOne (db : DB) (gameID : Int) (tagID : Int) : DB :=
  if db.tags.any (fun p => p = (gameID, tagID)) then db
  else { db with tags := db.tags ++ [(gameID, tagID)] }

/-- `insertTags`: inserts each tag id in order. -/
def insertTags (db : DB) (gameID : Int) (tagIDs : List Int) : DB :=
  tagIDs.foldl (fun d s => insertTagOne d gameID s) db

/-- One iteration of the loop in `insertPrefixes`. -/
def insertPrefixOne (db : DB) (gameID : Int) (prefixID : Int) : DB :=
  if db.prefixes.any (fun p => p = (gameID, prefixID)) then db
  else { db with prefixes := db.prefixes ++ [(gameID, prefixID)] }

/-- `insertPrefixes`: inserts each taxonomy id in order. -/
def insertPrefixes (db : DB) (gameID : Int) (prefixIDs : List Int) : DB :=
  prefixIDs.foldl (fun d s => insertPrefixOne d gameID s) db

/-- Intermediate states of a fold, one after each step: the autocommit
points a concurrent reader can observe while a loop of single-row INSERT
statements runs. -/
def foldTrace {α : Type} (step : DB → α → DB) (db : DB) : List α → List DB
  | [] => []
  | x :: rest =>
      let d := step db x
      d :: foldTrace step d rest

/-- The body of `updateDatabase`'s loop for one decoded record `f`:
creator get-or-create, game upsert, cover, previews, tags, prefixes. -/
def updateRecord (db : DB) (f : F95DATA) (now : Int) : DB :=
  let cg := insertCreator db f.creator
  let d2 := insertGame cg.2 f.threadId f.title f.version cg.1 now
  let d3 := insertCover d2 f.threadId f.cover
  let d4 := insertPreview d3 f.threadId f.screens
  let d5 := insertTags d4 f.threadId f.tags
  insertPrefixes d5 f.threadId f.prefixes

/-- All store states a concurrent reader can observe while the loop body
processes record `f` starting from `db`: the Go code wraps the statements
in no transaction, so every single SQL statement commits on its own.
The head of the list is the state before the first statement. -/
def updateRecordTrace (db : DB) (f : F95DATA) (now : Int) : List DB :=
  let cg := insertCreator db f.creator
  let d2 := insertGame cg.2 f.threadId f.title f.version cg.1 now
  let d3 := insertCover d2 f.threadId f.cover
  let pvs := foldTrace (fun d s => insertPreviewOne d f.threadId s) d3 f.screens
  let d4 := insertPreview d3 f.threadId f.screens
  let tgs := foldTrace (fun d s => insertTagOne d f.threadId s) d4 f.tags
  let d5 := insertTags d4 f.threadId f.tags
  let pfs := foldTrace (fun d s => insertPrefixOne d f.threadId s) d5 f.prefixes
  db :: cg.2 :: d2 :: d3 :: (pvs ++ tgs ++ pfs)

/-- `updateDatabase` of part_000: loops `updateRecord` over the decoded
snapshot.  (The only failure modes in its body are `log.Fatalf` on SQL
errors, which the statements above cannot produce — SQLite enforces no
foreign keys by default — so the loop always completes.) -/
def updateDatabase (db : DB) (entries : List F95DATA) (now : Int) : DB :=
  entries.foldl (fun d f => updateRecord d f now) db

/-- `SELECT id, title, version, updated FROM game WHERE id = ?` via
`QueryRow`: the first matching row, if any. -/
def lookupGame (db : DB) (id : Int) : Option GameRow :=
  db.games.find? (fun r => r.id = id)

/-- `select url from cover where game_id = ? order by id desc limit 1`:
the matching cover row with the greatest autoincrement id, if any. -/
def latestCover (db : DB) (gameID : Int) : Option AssetRow :=
  (db.covers.filter (fun c => c.gameId = gameID)).foldl
    (fun acc c =>
      match acc with
      | none => some c
      | some b => if b.rowId < c.rowId then some c else some b)
    none

/-- One rendered feed item (`Item`); `pubDate` is an abstract local-time
instant. -/
structure Item where
  title : String
  link : String
  description : String
  pubDate : Int
deriving Repr, DecidableEq

/-- Go `t.Local()` on an instant: the same instant viewed at the process
timezone offset `tz`. -/
def toLocal (tz t : Int) : Int := t + tz

/-- Outcome of one iteration of `fetchDataFromDB`'s loop for one id:
`skip` on `sql.ErrNoRows` for the game row; `fatal` when the game row
exists but the cover lookup returns no row (`log.Fatalf` kills the
process); otherwise the rendered item. -/
inductive RowOutcome where
  | skip : RowOutcome
  | fatal : RowOutcome
  | item : Item → RowOutcome
deriving Repr, DecidableEq

/-- The body of `fetchDataFromDB`'s loop for one id. -/
def rowOutcome (tz : Int) (db : DB) (id : Int) : RowOutcome :=
  match lookupGame db id with
  | none => .skip
  | some r =>
      match latestCover db r.id with
      | none => .fatal
      | some c =>
          .item { title := r.title ++ " [" ++ r.version ++ "]",
                  link := "https://f95zone.to/threads/" ++ toString r.id,
                  description := "<img src=\"" ++ c.url ++ "\" alt=\"" ++
                    r.title ++ "\" />",
                  pubDate := toLocal tz r.updated }

/-- The item produced for one id, when the loop body neither skips nor
dies. -/
def itemFor (tz : Int) (db : DB) (id : Int) : Option Item :=
  match rowOutcome tz db id with
  | .item it => some it
  | _ => none

/-- `fetchDataFromDB`: loops over the ids in order; `none` models the
process dying in `log.Fatalf` (missing cover row). -/
def fetchDataFromDB (tz : Int) (db : DB) : List Int → Option (List Item)
  | [] => some []
  | id :: rest =>
      match rowOutcome tz db id with
      | .skip => fetchDataFromDB tz db rest
      | .fatal => none
      | .item it => (fetchDataFromDB tz db rest).map (fun l => it :: l)

/-- The feed channel built by `generateFeed` around the item list. -/
structure Channel where
  title : String
  link : String
  description : String
  items : List Item
deriving Repr, DecidableEq

/-- `generateFeed`: fixed channel metadata around `fetchDataFromDB`. -/
def generateFeed (tz : Int) (db : DB) (ids : List Int) : Option Channel :=
  (fetchDataFromDB tz db ids).map (fun items =>
    { title := "F95zone Latest Updates",
      link := "https://f95zone.com/latest",
      description := "F95zone Adult Games - Latest Updates RSS Feed",
      items := items })

/-- Number of `game` rows bearing a given id. -/
def countGame (db : DB) (id : Int) : Nat :=
  (db.games.filter (fun r => r.id = id)).length

/-- Whether some `cover` row belongs to the given game. -/
def hasCover (db : DB) (gameID : Int) : Bool :=
  db.covers.any (fun c => c.gameId = gameID)

end F95

namespace V1

/-!
The RSS revision (`src/main.go`).  `parseData` runs
`regexp.MustCompile` with pattern `\] (?<name>.*?) \[(?<version>.+)\]`
and calls `FindStringSubmatch` on the item's display title.  Go's
regexp has Perl leftmost-first submatch semantics: the match starts at
the earliest possible position; `name` (`.*?`) is lazy, `version`
(`.+`) is greedy, and `.` matches any character except newline.
`matchVersion`, `matchAfterBracket` and `findMatch` implement exactly
this backtracking order on the title's character list. -/

/-- The suffix ` \[(?<version>.+)\]` after the literal `[` has been
consumed: the greedy `version` is the longest run of non-newline
characters followed by a `]`. -/
def matchVersion : List Char → Option (List Char)
  | [] => none
  | c :: rest =>
      if c = '\n' then none
      else
        match matchVersion rest with
        | some v => some (c :: v)
        | none =>
            match rest with
            | r :: _ => if r = ']' then some [c] else none
            | [] => none

/-- Whether the pattern can continue with ` [(?<version>.+)\]` right
here, i.e. with the lazy `name` group ending before `c`. -/
def tryBracketHere (c : Char) (rest : List Char) :
    Option (List Char × List Char) :=
  if c = ' ' then
    match rest with
    | r :: rest2 =>
        if r = '[' then (matchVersion rest2).map (fun v => ([], v))
        else none
    | [] => none
  else none

/-- The part after the literal `] `: the lazy `name` is the shortest run
of non-newline characters followed by ` [` and a successful `version`
match. -/
def matchAfterBracket : List Char → Option (List Char × List Char)
  | [] => none
  | c :: rest =>
      match tryBracketHere c rest with
      | some r => some r
      | none =>
          if c = '\n' then none
          else
            match matchAfterBracket rest with
            | some p => some (c :: p.1, p.2)
            | none => none

/-- Leftmost match of `\] (?<name>.*?) \[(?<version>.+)\]` in a character
list: the earliest `] ` from which the rest of the pattern completes. -/
def findMatch : List Char → Option (List Char × List Char)
  | [] => none
  | c :: rest =>
      if c = ']' then
        match rest with
        | r :: rest2 =>
            if r = ' ' then
              match matchAfterBracket rest2 with
              | some p => some p
              | none => findMatch rest
            else findMatch rest
        | [] => none
      else findMatch rest

/-- `FindStringSubmatch` of the title regexp, reduced to the two named
groups: `none` models the nil slice returned on no match. -/
def goTitleRegexMatch (s : String) : Option (String × String) :=
  (findMatch s.data).map (fun p => (String.mk p.1, String.mk p.2))

/-- Modelled from the spec: the Normalizer section says title and version
are extracted "by matching the entry's display title against the fixed
shape `"<title> [<version>]"`" — the whole display title is a title, a
space, and a bracketed non-empty version.  This definition exists only to
be compared with `goTitleRegexMatch`, the embedding of the code's regexp. -/
def specTitleShapeTail : List Char → Option (List Char)
  | [] => none
  | c :: rest =>
      if rest = [']'] then some [c]
      else
        match specTitleShapeTail rest with
        | some v => some (c :: v)
        | none => none

/-- Modelled from the spec (see `specTitleShapeTail`): split a display
title of the shape `<title> [<version>]` at its first ` [` whose bracket
closes at the end of the string. -/
def specTitleShape : List Char → Option (List Char × List Char)
  | [] => none
  | c :: rest =>
      match c, rest with
      | ' ', '[' :: rest2 =>
          (match specTitleShapeTail rest2 with
           | some v => some ([], v)
           | none =>
               match specTitleShape rest with
               | some p => some (c :: p.1, p.2)
               | none => none)
      | _, _ =>
          match specTitleShape rest with
          | some p => some (c :: p.1, p.2)
          | none => none

/-- One feed entry as `parseData` consumes it.  The thread id, the
creator, the published instant and the image url are carried as the
already-decoded values the Go code reads off the `gofeed.Item`; the
display title is kept raw because the title regexp is the step that can
fail. -/
structure RawItem where
  id : Int
  title : String
  creator : String
  published : Int
  imageUrl : String
deriving Repr, DecidableEq

/-- The `Game` struct of main.go. -/
structure Game where
  id : Int
  name : String
  version : String
  creator : String
  publisher : Int
  imageUrl : String
deriving Repr, DecidableEq

/-- `parseData`: on a title the regexp does not match,
`FindStringSubmatch` returns nil and `matches[name]` is an index out of
range — a runtime panic, modelled as `none`. -/
def parseData (it : RawItem) : Option Game :=
  match goTitleRegexMatch it.title with
  | none => none
  | some nv =>
      some { id := it.id, name := nv.1, version := nv.2,
             creator := it.creator, publisher := it.published,
             imageUrl := it.imageUrl }

/-- The single `game` table of main.go's schema. -/
abbrev DBv1 : Type := List Game

/-- `insert or replace into game values (?, ?, ?, ?, ?, ?)`: replace the
row with the same primary key, else append. -/
def insertOrReplace (t : DBv1) (g : Game) : DBv1 :=
  if t.any (fun r => r.id = g.id) then
    t.map (fun r => if r.id = g.id then g else r)
  else t ++ [g]

/-- `updateDatabase` of main.go: each loop iteration parses one entry and
commits its row (`Exec` autocommits).  A parse panic kills the process:
the rows of earlier iterations stay committed, the remaining entries are
never processed, and the final `log.Println("Update successfully")` is
never reached.  The Bool is `true` when the loop ran to completion. -/
def updateDatabase (t : DBv1) : List RawItem → DBv1 × Bool
  | [] => (t, true)
  | f :: rest =>
      match parseData f with
      | none => (t, false)
      | some g => updateDatabase (insertOrReplace t g) rest

end V1

namespace Sched

/-!
The scheduler (`main` of both revisions): `c := cron.New();
c.AddFunc(RSSCRON, func() { updateDatabase(db); ... })`.  robfig/cron v3
with no `WithChain` option wraps jobs in the empty chain: every firing
starts the job in a fresh goroutine at its scheduled time, with no
`SkipIfStillRunning` guard.  The model takes the scheduled firing
instants and one cycle duration, and counts the cycles alive at an
instant. -/

/-- Which scheduled firings actually start a cycle under `cron.New()`
with the default (empty) wrapper chain: all of them. -/
def startedFirings (fireTimes : List Int) : List Int := fireTimes

/-- How many cycles are running at instant `t`, when every cycle takes
`dur` instants. -/
def runningAt (fireTimes : List Int) (dur : Int) (t : Int) : Nat :=
  ((startedFirings fireTimes).filter (fun s => s ≤ t ∧ t < s + dur)).length

end Sched

namespace F95

/-! Concrete store scenarios, built through the program's own write path. -/

/-- A first snapshot record: game 1 with cover url `u`. -/
def sampleA : F95DATA :=
  { threadId := 1, title := "A", creator := "x", version := "1",
    prefixes := [7], tags := [3], cover := "u", screens := ["s1"] }

/-- A second record: game 2 whose cover url collides with game 1's. -/
def sampleB : F95DATA :=
  { threadId := 2, title := "B", creator := "y", version := "2",
    prefixes := [], tags := [], cover := "u", screens := [] }

/-- Store after ingesting `sampleA` at instant 10. -/
def dbA : DB := updateRecord DB.empty sampleA 10

/-- Store after then ingesting `sampleB` at instant 20: game 2's row
exists but — the cover url being globally unique and already taken by
game 1 — game 2 has no cover row. -/
def dbAB : DB := updateRecord dbA sampleB 20

/-- Pre-cycle version of game 1 for the interleaving scenario. -/
def recPre : F95DATA :=
  { threadId := 1, title := "A", creator := "x", version := "1",
    prefixes := [], tags := [], cover := "c1", screens := [] }

/-- Post-cycle version of game 1: new title, version and cover url. -/
def recPost : F95DATA :=
  { threadId := 1, title := "B", creator := "x", version := "2",
    prefixes := [], tags := [], cover := "c2", screens := [] }

/-- Store holding the pre-cycle version of game 1. -/
def dbPre : DB := updateRecord DB.empty recPre 10

/-- The store state right after the `insertGame` statement of the cycle
writing `recPost` over `dbPre`, before its `insertCover` statement has
run: the game row already carries the new fields while the cover table is
still pre-cycle. -/
def dbMid : DB := insertGame dbPre 1 "B" "2" 1 20

/-- Store holding games 5, 3 and 9 (for the ordered-feed scenario). -/
def db539 : DB :=
  updateDatabase DB.empty
    [{ threadId := 5, title := "F", creator := "c", version := "5",
       prefixes := [], tags := [], cover := "u5", screens := [] },
     { threadId := 3, title := "G", creator := "c", version := "3",
       prefixes := [], tags := [], cover := "u3", screens := [] },
     { threadId := 9, title := "H", creator := "c", version := "9",
       prefixes := [], tags := [], cover := "u9", screens := [] }] 10

end F95

namespace V1

/-- An entry whose display title fits the spec shape `<title> [<version>]`
but not the code's regexp (no `] ` before the title). -/
def badItem : RawItem :=
  { id := 11, title := "Foo [1.2]", creator := "x", published := 5,
    imageUrl := "i1" }

/-- An entry whose display title the code's regexp does match. -/
def goodItem : RawItem :=
  { id := 12, title := "[VN] Bar [2.0]", creator := "y", published := 6,
    imageUrl := "i2" }

end V1



/-! ## Helper lemmas -/

theorem find?_eq_none_of_any_false {α : Type} (p : α → Bool) :
    ∀ l : List α, l.any p = false → l.find? p = none := by
  intro l h
  induction l with
  | nil => rfl
  | cons a l ih =>
      simp only [List.any_cons, Bool.or_eq_false_iff] at h
      rw [List.find?_cons_of_neg _ (by simp [h.1]), ih h.2]

theorem find?_append_of_none {α : Type} (p : α → Bool) :
    ∀ l l' : List α, l.find? p = none → (l ++ l').find? p = l'.find? p := by
  intro l l' h
  induction l with
  | nil => rfl
  | cons a l ih =>
      cases hp : p a with
      | true => rw [List.find?_cons_of_pos _ hp] at h; cases h
      | false =>
          rw [List.find?_cons_of_neg _ (by simp [hp])] at h
          rw [List.cons_append, List.find?_cons_of_neg _ (by simp [hp]), ih h]

theorem find?_isSome_of_any {α : Type} (p : α → Bool) :
    ∀ l : List α, l.any p = true → (l.find? p).isSome = true := by
  intro l h
  induction l with
  | nil => cases h
  | cons a l ih =>
      cases hp : p a with
      | true => rw [List.find?_cons_of_pos _ hp]; rfl
      | false =>
          simp only [List.any_cons, hp, Bool.false_or] at h
          rw [List.find?_cons_of_neg _ (by simp [hp])]
          exact ih h

theorem find?_map_pres {α : Type} (p : α → Bool) (f : α → α)
    (hf : ∀ r, p (f r) = p r) :
    ∀ l : List α, (l.map f).find? p = (l.find? p).map f := by
  intro l
  induction l with
  | nil => rfl
  | cons a l ih =>
      cases hp : p a with
      | true =>
          rw [List.map_cons, List.find?_cons_of_pos _ (by rw [hf a]; exact hp),
              List.find?_cons_of_pos _ hp]
          rfl
      | false =>
          rw [List.map_cons, List.find?_cons_of_neg _ (by simp [hf a, hp]),
              List.find?_cons_of_neg _ (by simp [hp]), ih]

theorem filter_map_pres {α : Type} (p : α → Bool) (f : α → α)
    (hf : ∀ r, p (f r) = p r) :
    ∀ l : List α, (l.map f).filter p = (l.filter p).map f := by
  intro l
  induction l with
  | nil => rfl
  | cons a l ih =>
      cases hp : p a with
      | true =>
          rw [List.map_cons, List.filter_cons_of_pos (by rw [hf a]; exact hp),
              List.filter_cons_of_pos hp, List.map_cons, ih]
      | false =>
          rw [List.map_cons, List.filter_cons_of_neg (by simp [hf a, hp]),
              List.filter_cons_of_neg (by simp [hp]), ih]

theorem filter_eq_nil_of_any_false {α : Type} (p : α → Bool) :
    ∀ l : List α, l.any p = false → l.filter p = [] := by
  intro l h
  induction l with
  | nil => rfl
  | cons a l ih =>
      simp only [List.any_cons, Bool.or_eq_false_iff] at h
      rw [List.filter_cons_of_neg (by simp [h.1]), ih h.2]

theorem length_filter_pos_of_any {α : Type} (p : α → Bool) :
    ∀ l : List α, l.any p = true → 0 < (l.filter p).length := by
  intro l h
  induction l with
  | nil => cases h
  | cons a l ih =>
      cases hp : p a with
      | true => rw [List.filter_cons_of_pos hp]; exact Nat.succ_pos _
      | false =>
          simp only [List.any_cons, hp, Bool.false_or] at h
          rw [List.filter_cons_of_neg (by simp [hp])]
          exact ih h

/-- The effect of one `insertGame` call on the row later read back for
that id: every call leaves `updated` at the call's instant, while
`created` keeps the pre-call value when the id already existed and is set
to the call's instant otherwise. -/
theorem lookupGame_insertGame (db : F95.DB) (id : Int) (t v : String)
    (c now : Int) :
    F95.lookupGame (F95.insertGame db id t v c now) id =
      some { id := id, title := t, version := v, creatorId := c,
             created := (match F95.lookupGame db id with
                         | some old => old.created
                         | none => now),
             updated := now } := by
  unfold F95.insertGame F95.lookupGame
  cases ha : db.games.any (fun r => decide (r.id = id)) with
  | false =>
      rw [if_neg (by simp [ha])]
      have hn : db.games.find? (fun r => decide (r.id = id)) = none :=
        find?_eq_none_of_any_false _ _ ha
      simp only [hn]
      rw [find?_append_of_none _ _ _ hn]
      simp [List.find?]
  | true =>
      rw [if_pos (by simp [ha])]
      have hpres : ∀ r : F95.GameRow,
          (fun r : F95.GameRow => decide (r.id = id))
            (if r.id = id then
              { r with title := t, version := v, creatorId := c,
                       updated := now }
            else r) =
          (fun r : F95.GameRow => decide (r.id = id)) r := by
        intro r
        by_cases hr : r.id = id <;> simp [hr]
      rw [find?_map_pres _ _ hpres]
      have hs := find?_isSome_of_any _ db.games ha
      obtain ⟨row, hrow⟩ := Option.isSome_iff_exists.mp hs
      have hid : row.id = id := by
        have := List.find?_some hrow
        simpa using this
      simp only [hrow, Option.map_some']
      rw [if_pos hid]
      obtain ⟨rid, rt, rv, rc, rcr, ru⟩ := row
      simp only at hid
      subst hid
      rfl

/-- One `insertGame` call leaves exactly one `game` row for the id, as
long as the table held at most one such row before (the id being the
table's primary key). -/
theorem countGame_insertGame (db : F95.DB) (id : Int) (t v : String)
    (c now : Int) (h : F95.countGame db id ≤ 1) :
    F95.countGame (F95.insertGame db id t v c now) id = 1 := by
  unfold F95.countGame F95.insertGame at *
  cases ha : db.games.any (fun r => decide (r.id = id)) with
  | false =>
      rw [if_neg (by simp [ha])]
      rw [List.filter_append, filter_eq_nil_of_any_false _ _ ha]
      simp [List.filter]
  | true =>
      rw [if_pos (by simp [ha])]
      have hpres : ∀ r : F95.GameRow,
          (fun r : F95.GameRow => decide (r.id = id))
            (if r.id = id then
              { r with title := t, version := v, creatorId := c,
                       updated := now }
            else r) =
          (fun r : F95.GameRow => decide (r.id = id)) r := by
        intro r
        by_cases hr : r.id = id <;> simp [hr]
      rw [filter_map_pres _ _ hpres, List.length_map]
      have hpos := length_filter_pos_of_any _ db.games ha
      omega

/-! ## Claim theorems -/

/-- Claim C5 (confirmed): every `insertGame` call — the write path of
`upsertGame` — leaves the game's `updated` timestamp at the instant of
the call (the `update_timestamp` trigger fires on the conflict UPDATE
even when the written field values equal the stored ones, since the
title/version/creator arguments are arbitrary here, equal values
included), while `created` is set only when the id is first inserted and
is preserved on every later call. -/
theorem insertGame_advances_updated_sets_created_once
    (db : F95.DB) (id : Int) (t v : String) (c now : Int) :
    F95.lookupGame (F95.insertGame db id t v c now) id =
      some { id := id, title := t, version := v, creatorId := c,
             created := (match F95.lookupGame db id with
                         | some old => old.created
                         | none => now),
             updated := now } :=
  lookupGame_insertGame db id t v c now

/-- Claim C8 (confirmed): upserting the same record twice for one id —
first at instant `t1`, then at instant `t2` — leaves exactly one `game`
row for that id; its fields equal the second write's values and its
`updated` timestamp equals the second write's instant (while `created`
stays from the first insert if the id was new).  The hypothesis says the
primary key held before the calls: at most one row per id. -/
theorem insertGame_upsert_idempotent (db : F95.DB) (id : Int)
    (t v : String) (c t1 t2 : Int) (h : F95.countGame db id ≤ 1) :
    F95.countGame
      (F95.insertGame (F95.insertGame db id t v c t1) id t v c t2) id = 1 ∧
    F95.lookupGame
      (F95.insertGame (F95.insertGame db id t v c t1) id t v c t2) id =
      some { id := id, title := t, version := v, creatorId := c,
             created := (match F95.lookupGame db id with
                         | some old => old.created
                         | none => t1),
             updated := t2 } := by
  have h1 : F95.countGame (F95.insertGame db id t v c t1) id = 1 :=
    countGame_insertGame db id t v c t1 h
  refine ⟨countGame_insertGame _ id t v c t2 (le_of_eq h1), ?_⟩
  rw [lookupGame_insertGame, lookupGame_insertGame]

/-- Witness for C8: upserting the record (1, "A", "1", creator 7) twice
into the empty store, at instants 10 then 20, leaves one row with the
second write's fields and `updated` = 20, `created` = 10. -/
theorem insertGame_upsert_idempotent_witness :
    F95.countGame
      (F95.insertGame (F95.insertGame F95.DB.empty 1 "A" "1" 7 10)
        1 "A" "1" 7 20) 1 = 1 ∧
    F95.lookupGame
      (F95.insertGame (F95.insertGame F95.DB.empty 1 "A" "1" 7 10)
        1 "A" "1" 7 20) 1 =
      some { id := 1, title := "A", version := "1", creatorId := 7,
             created := 10, updated := 20 } :=
  insertGame_upsert_idempotent F95.DB.empty 1 "A" "1" 7 10 20 (by decide)

/-- When a game has no cover row, the ordered cover lookup returns no
row. -/
theorem latestCover_none_of_no_cover (db : F95.DB) (id : Int)
    (h : F95.hasCover db id = false) : F95.latestCover db id = none := by
  unfold F95.latestCover
  unfold F95.hasCover at h
  rw [filter_eq_nil_of_any_false _ _ h]
  rfl

/-- A stored game with no cover row drives `fetchDataFromDB`'s loop body
into the `log.Fatalf` branch. -/
theorem rowOutcome_fatal_of_no_cover (tz : Int) (db : F95.DB) (id : Int)
    (r : F95.GameRow) (h1 : F95.lookupGame db id = some r)
    (h2 : F95.hasCover db id = false) :
    F95.rowOutcome tz db id = F95.RowOutcome.fatal := by
  have hid : r.id = id := by
    have := List.find?_some h1
    simpa using this
  simp only [F95.rowOutcome, h1, hid, latestCover_none_of_no_cover db id h2]

/-- Once any id in the list hits the fatal branch, the whole
`fetchDataFromDB` call dies (no item list is produced). -/
theorem fetch_none_of_mem_fatal (tz : Int) (db : F95.DB) (id : Int) :
    ∀ ids : List Int, id ∈ ids →
      F95.rowOutcome tz db id = F95.RowOutcome.fatal →
      F95.fetchDataFromDB tz db ids = none := by
  intro ids hm hf
  induction ids with
  | nil => cases hm
  | cons i rest ih =>
      rcases List.mem_cons.mp hm with hi | hi
      · subst hi
        unfold F95.fetchDataFromDB
        rw [hf]
      · unfold F95.fetchDataFromDB
        cases ho : F95.rowOutcome tz db i with
        | skip => exact ih hi
        | fatal => rfl
        | item it => rw [ih hi]; rfl

/-- Claim C3 counterexample: in `dbAB` — a store built purely through
the program's own write path — game 2 has a row but no cover row, and
`fetchDataFromDB` for `[2]` produces no feed at all (the loop body hits
`log.Fatalf`), instead of a `FeedItem` with an empty image section. -/
theorem missing_cover_fatal_cex :
    (F95.lookupGame F95.dbAB 2).isSome = true ∧
    F95.hasCover F95.dbAB 2 = false ∧
    F95.rowOutcome 0 F95.dbAB 2 = F95.RowOutcome.fatal ∧
    F95.fetchDataFromDB 0 F95.dbAB [2] = none := by decide

/-- Claim C3 (corrected): a game stored with no cover row is a fatal
condition for the lookup — `fetchDataFromDB` scans the cover query's
`ErrNoRows` into `log.Fatalf`, so the whole feed build (and process)
dies whenever such a game's id is requested; no item, with or without an
image section, is produced. -/
theorem fetch_fatal_of_missing_cover (tz : Int) (db : F95.DB) (id : Int)
    (ids : List Int) (h1 : (F95.lookupGame db id).isSome = true)
    (h2 : F95.hasCover db id = false) (h3 : id ∈ ids) :
    F95.rowOutcome tz db id = F95.RowOutcome.fatal ∧
    F95.fetchDataFromDB tz db ids = none := by
  obtain ⟨r, hr⟩ := Option.isSome_iff_exists.mp h1
  have hf := rowOutcome_fatal_of_no_cover tz db id r hr h2
  exact ⟨hf, fetch_none_of_mem_fatal tz db id ids h3 hf⟩

/-- Witness for C3: requesting ids `[1, 2]` against `dbAB` (game 2 has a
row and no cover) kills the fetch. -/
theorem fetch_fatal_of_missing_cover_witness :
    F95.rowOutcome 0 F95.dbAB 2 = F95.RowOutcome.fatal ∧
    F95.fetchDataFromDB 0 F95.dbAB [1, 2] = none :=
  fetch_fatal_of_missing_cover 0 F95.dbAB 2 [1, 2] (by decide) (by decide)
    (by decide)

/-- Claim C4 counterexample: in `dbAB` both ids 1 and 2 have matching
game rows, yet `fetchDataFromDB` on `[1, 2]` returns no item list at all
(game 2 has no cover row, which is fatal), rather than one item per
matching id in input order. -/
theorem fetch_dies_despite_matching_rows_cex :
    (F95.lookupGame F95.dbAB 1).isSome = true ∧
    (F95.lookupGame F95.dbAB 2).isSome = true ∧
    F95.fetchDataFromDB 0 F95.dbAB [1, 2] = none := by decide

/-- When no requested id hits the fatal branch, the per-id item (if
any) exists exactly when the game row exists. -/
theorem itemFor_isSome_iff_lookup (tz : Int) (db : F95.DB) (i : Int)
    (h : F95.rowOutcome tz db i ≠ F95.RowOutcome.fatal) :
    (F95.itemFor tz db i).isSome = (F95.lookupGame db i).isSome := by
  unfold F95.itemFor
  cases hl : F95.lookupGame db i with
  | none =>
      have hs : F95.rowOutcome tz db i = F95.RowOutcome.skip := by
        unfold F95.rowOutcome
        rw [hl]
      rw [hs]
      rfl
  | some r =>
      cases hc : F95.latestCover db r.id with
      | none =>
          exact absurd (by simp only [F95.rowOutcome, hl, hc]) h
      | some cvr =>
          have hs : F95.rowOutcome tz db i =
              F95.RowOutcome.item
                { title := r.title ++ " [" ++ r.version ++ "]",
                  link := "https://f95zone.to/threads/" ++ toString r.id,
                  description := "<img src=\"" ++ cvr.url ++ "\" alt=\"" ++
                    r.title ++ "\" />",
                  pubDate := F95.toLocal tz r.updated } := by
            simp only [F95.rowOutcome, hl, hc]
          rw [hs]
          rfl

/-- Claim C4 (corrected): provided no requested id names a game stored
without a cover row (such an id is fatal, see C3), `fetchDataFromDB`
returns exactly the per-id items in input order — ids without a matching
game row are silently dropped by the `filterMap`, and a duplicate input
id contributes one item per occurrence; moreover an item is produced for
an id precisely when a game row matches it. -/
theorem fetch_order_duplicates_omission (tz : Int) (db : F95.DB)
    (ids : List Int)
    (h : ∀ i ∈ ids, F95.rowOutcome tz db i ≠ F95.RowOutcome.fatal) :
    F95.fetchDataFromDB tz db ids =
      some (ids.filterMap (F95.itemFor tz db)) ∧
    ∀ i ∈ ids, (F95.itemFor tz db i).isSome = (F95.lookupGame db i).isSome := by
  refine ⟨?_, fun i hi => itemFor_isSome_iff_lookup tz db i (h i hi)⟩
  induction ids with
  | nil => rfl
  | cons i rest ih =>
      have hrest := ih (fun x hx => h x (List.mem_cons_of_mem _ hx))
      have hhead := h i (List.mem_cons_self i rest)
      unfold F95.fetchDataFromDB
      cases ho : F95.rowOutcome tz db i with
      | skip =>
          have hit : F95.itemFor tz db i = none := by
            unfold F95.itemFor; rw [ho]
          rw [List.filterMap_cons, hit, hrest]
      | fatal => exact absurd ho hhead
      | item it =>
          have hit : F95.itemFor tz db i = some it := by
            unfold F95.itemFor; rw [ho]
          rw [List.filterMap_cons, hit, hrest]
          rfl

/-- Witness for C4: over `db539` (holding games 5, 3 and 9, each with a
cover) the request `[5, 3, 3, 9]` yields items in exactly the input
order, with the duplicate 3 duplicated; asking for the absent id 4 as
well drops it silently. -/
theorem fetch_order_duplicates_omission_witness :
    (F95.fetchDataFromDB 0 F95.db539 [5, 3, 3, 9] =
      some ([5, 3, 3, 9].filterMap (F95.itemFor 0 F95.db539)) ∧
     ∀ i ∈ [5, 3, 3, 9],
       (F95.itemFor 0 F95.db539 i).isSome = (F95.lookupGame F95.db539 i).isSome) ∧
    (F95.fetchDataFromDB 0 F95.db539 [5, 4, 9]).map
        (fun l => l.map F95.Item.title) = some ["F [5]", "H [9]"] :=
  ⟨fetch_order_duplicates_omission 0 F95.db539 [5, 3, 3, 9] (by decide),
   by decide⟩

/-- Claim C6 (confirmed): whenever the loop body of `fetchDataFromDB`
renders an item for a stored game, the item's `pubDate` is exactly the
game row's `updated` timestamp converted to local time
(`time.Parse` of the scanned `updated` column followed by `.Local()`). -/
theorem item_pubDate_eq_local_updated (tz : Int) (db : F95.DB) (id : Int)
    (r : F95.GameRow) (it : F95.Item)
    (h1 : F95.lookupGame db id = some r)
    (h2 : F95.rowOutcome tz db id = F95.RowOutcome.item it) :
    it.pubDate = F95.toLocal tz r.updated := by
  simp only [F95.rowOutcome, h1] at h2
  cases hc : F95.latestCover db r.id with
  | none => rw [hc] at h2; cases h2
  | some cvr =>
      rw [hc] at h2
      injection h2 with h3
      rw [← h3]

/-- Witness for C6: in `db539`, game 5's row has `updated` = 10, and the
item fetched for id 5 carries `pubDate` = `toLocal 0 10`. -/
theorem item_pubDate_eq_local_updated_witness :
    F95.rowOutcome 0 F95.db539 5 =
      F95.RowOutcome.item
        { title := "F [5]", link := "https://f95zone.to/threads/5",
          description := "<img src=\"u5\" alt=\"F\" />", pubDate := 10 } ∧
    F95.Item.pubDate
        { title := "F [5]", link := "https://f95zone.to/threads/5",
          description := "<img src=\"u5\" alt=\"F\" />", pubDate := 10 } =
      F95.toLocal 0
        (F95.GameRow.updated
          { id := 5, title := "F", version := "5", creatorId := 1,
            created := 10, updated := 10 }) :=
  ⟨by decide,
   item_pubDate_eq_local_updated 0 F95.db539 5
     { id := 5, title := "F", version := "5", creatorId := 1,
       created := 10, updated := 10 }
     { title := "F [5]", link := "https://f95zone.to/threads/5",
       description := "<img src=\"u5\" alt=\"F\" />", pubDate := 10 }
     (by decide) (by decide)⟩

/-- Claim C2 counterexample: while the cycle rewrites game 1 from
`recPre` to `recPost`, the state `dbMid` — right after the `insertGame`
statement, before the `insertCover` statement — is among the states a
concurrent reader can observe (`updateRecordTrace`), and the item a
reader fetches there matches neither the pre-cycle nor the post-cycle
item: the record's writes are not one atomic unit. -/
theorem reader_mixed_record_cex :
    (F95.updateRecordTrace F95.dbPre F95.recPost 20).get? 2 =
      some F95.dbMid ∧
    (F95.itemFor 0 F95.dbMid 1).isSome = true ∧
    F95.itemFor 0 F95.dbMid 1 ≠ F95.itemFor 0 F95.dbPre 1 ∧
    F95.itemFor 0 F95.dbMid 1 ≠
      F95.itemFor 0 (F95.updateRecord F95.dbPre F95.recPost 20) 1 := by
  decide

/-- Claim C2 (corrected): the writes for one record are separate
autocommitted SQL statements, not one transaction; between the game
upsert and the cover insert a reader of the feed observes a mixture —
the new title, version and `updated` timestamp combined with the
pre-cycle cover url. -/
theorem updateRecord_mid_state_mixed_view :
    F95.dbMid ∈ F95.updateRecordTrace F95.dbPre F95.recPost 20 ∧
    F95.itemFor 0 F95.dbPre 1 =
      some { title := "A [1]", link := "https://f95zone.to/threads/1",
             description := "<img src=\"c1\" alt=\"A\" />", pubDate := 10 } ∧
    F95.itemFor 0 F95.dbMid 1 =
      some { title := "B [2]", link := "https://f95zone.to/threads/1",
             description := "<img src=\"c1\" alt=\"B\" />", pubDate := 20 } ∧
    F95.itemFor 0 (F95.updateRecord F95.dbPre F95.recPost 20) 1 =
      some { title := "B [2]", link := "https://f95zone.to/threads/1",
             description := "<img src=\"c2\" alt=\"B\" />", pubDate := 20 } := by
  decide

/-- Claim C1 counterexample: a snapshot of two entries of which exactly
the first fails normalization.  The cycle does not skip it and continue:
`updateDatabase` dies at the malformed entry (regexp non-match panics at
`matches[name]`), commits zero of the two records instead of one, and
never completes. -/
theorem updateDatabase_one_bad_entry_aborts_cex :
    V1.parseData V1.badItem = none ∧
    (V1.parseData V1.goodItem).isSome = true ∧
    V1.updateDatabase [] [V1.badItem, V1.goodItem] = ([], false) := by
  decide

/-- Claim C1 (corrected): a malformed entry aborts the rest of the cycle
and the process.  Running a cycle over `pre ++ bad :: rest`, where every
entry of `pre` normalizes and `bad` does not, commits exactly the rows
of the entries before `bad` (each `Exec` autocommits), processes none of
`rest`, and never reaches the cycle's completion point — while the same
cycle over `pre` alone completes. -/
theorem updateDatabase_aborts_at_first_parse_failure (t : V1.DBv1)
    (pre rest : List V1.RawItem) (bad : V1.RawItem)
    (h : ∀ f ∈ pre, (V1.parseData f).isSome = true)
    (hb : V1.parseData bad = none) :
    V1.updateDatabase t (pre ++ bad :: rest) =
      ((V1.updateDatabase t pre).1, false) ∧
    (V1.updateDatabase t pre).2 = true := by
  induction pre generalizing t with
  | nil =>
      refine ⟨?_, rfl⟩
      show V1.updateDatabase t (bad :: rest) = (t, false)
      unfold V1.updateDatabase
      rw [hb]
  | cons f pre ih =>
      have hf := h f (List.mem_cons_self f pre)
      obtain ⟨g, hg⟩ := Option.isSome_iff_exists.mp hf
      have h' : ∀ x ∈ pre, (V1.parseData x).isSome = true :=
        fun x hx => h x (List.mem_cons_of_mem _ hx)
      have step : ∀ l, V1.updateDatabase t (f :: l) =
          V1.updateDatabase (V1.insertOrReplace t g) l := by
        intro l
        simp only [V1.updateDatabase, hg]
      rw [List.cons_append, step, step]
      exact ih _ h'

/-- Witness for C1 (corrected): with one good entry before and one after
the malformed entry, the cycle commits only the first good row and
aborts, while the prefix alone completes. -/
theorem updateDatabase_aborts_at_first_parse_failure_witness :
    V1.updateDatabase [] ([V1.goodItem] ++ V1.badItem :: [V1.goodItem]) =
      ((V1.updateDatabase [] [V1.goodItem]).1, false) ∧
    (V1.updateDatabase [] [V1.goodItem]).2 = true :=
  updateDatabase_aborts_at_first_parse_failure [] [V1.goodItem]
    [V1.goodItem] V1.badItem (by decide) (by decide)

/-- Claim C9 counterexample: with firings scheduled at instants 0 and 10
and a cycle taking 15 instants, two cycles are alive at instant 12 — the
second firing was started, not skipped, while the first still ran. -/
theorem cron_overlap_cex : Sched.runningAt [0, 10] 15 12 = 2 := by decide

/-- Claim C9 (corrected): `cron.New()` is built with no
`SkipIfStillRunning` wrapper, so no firing is ever skipped — every
scheduled firing starts its own cycle — and whenever a cycle's duration
exceeds the gap to the next firing, two cycles of the job run
concurrently at the instant of the second firing. -/
theorem cron_no_skip_overlap (gap dur : Int) (h1 : 0 < gap)
    (h2 : gap < dur) :
    Sched.startedFirings [0, gap] = [0, gap] ∧
    Sched.runningAt [0, gap] dur gap = 2 := by
  refine ⟨rfl, ?_⟩
  have ha : (0 : Int) ≤ gap ∧ gap < 0 + dur := ⟨le_of_lt h1, by omega⟩
  have hb : gap ≤ gap ∧ gap < gap + dur := ⟨le_refl gap, by omega⟩
  unfold Sched.runningAt Sched.startedFirings
  rw [List.filter_cons_of_pos (by simpa using ha),
      List.filter_cons_of_pos (by simpa using hb)]
  rfl

/-- Witness for C9 (corrected): firings at 0 and 10 with cycle duration
15 — both firings start, and at instant 10 two cycles run at once. -/
theorem cron_no_skip_overlap_witness :
    Sched.startedFirings [0, 10] = [0, 10] ∧
    Sched.runningAt [0, 10] 15 10 = 2 :=
  cron_no_skip_overlap 10 15 (by decide) (by decide)

/-- Claim C10 (confirmed): cover/preview url uniqueness is global, not
per game.  If any stored cover row (for whatever game) already carries
url `u`, `insertCover` of `u` for any game — a different one included —
is a complete no-op via `insert or ignore`, so that game gains no cover
row of its own; likewise for previews. -/
theorem asset_url_global_unique_ignore (db : F95.DB) (g : Int)
    (u u' : String) :
    (db.covers.any (fun c => c.url = u) = true →
      F95.insertCover db g u = db) ∧
    (db.previews.any (fun c => c.url = u') = true →
      F95.insertPreviewOne db g u' = db) := by
  constructor
  · intro h
    unfold F95.insertCover
    rw [if_pos (by simpa using h)]
  · intro h
    unfold F95.insertPreviewOne
    rw [if_pos (by simpa using h)]

/-- Witness for C10: in `dbA` the url `u` is game 1's cover and `s1`
game 1's preview; inserting either url for game 2 changes nothing, so
game 2 gains no cover/preview row. -/
theorem asset_url_global_unique_ignore_witness :
    F95.insertCover F95.dbA 2 "u" = F95.dbA ∧
    F95.insertPreviewOne F95.dbA 2 "s1" = F95.dbA :=
  ⟨(asset_url_global_unique_ignore F95.dbA 2 "u" "s1").1 (by decide),
   (asset_url_global_unique_ignore F95.dbA 2 "u" "s1").2 (by decide)⟩

/-- Unfolding step of `matchVersion` on a cons cell. -/
theorem matchVersion_cons (c : Char) (rest : List Char) :
    V1.matchVersion (c :: rest) =
      if c = '\n' then none
      else
        match V1.matchVersion rest with
        | some v => some (c :: v)
        | none =>
            match rest with
            | r :: _ => if r = ']' then some [c] else none
            | [] => none := rfl

/-- Unfolding step of `matchAfterBracket` on a cons cell. -/
theorem matchAfterBracket_cons (c : Char) (rest : List Char) :
    V1.matchAfterBracket (c :: rest) =
      match V1.tryBracketHere c rest with
      | some r => some r
      | none =>
          if c = '\n' then none
          else
            match V1.matchAfterBracket rest with
            | some p => some (c :: p.1, p.2)
            | none => none := rfl

/-- Unfolding step of `findMatch` on a cons cell. -/
theorem findMatch_cons (c : Char) (rest : List Char) :
    V1.findMatch (c :: rest) =
      if c = ']' then
        match rest with
        | r :: rest2 =>
            if r = ' ' then
              match V1.matchAfterBracket rest2 with
              | some p => some p
              | none => V1.findMatch rest
            else V1.findMatch rest
        | [] => none
      else V1.findMatch rest := rfl

/-- A version text without `]` or newline, closed by a final `]`, is
taken whole by the greedy `version` group. -/
theorem matchVersion_closes :
    ∀ v : List Char, ']' ∉ v → '\n' ∉ v → v ≠ [] →
      V1.matchVersion (v ++ [']']) = some v := by
  intro v
  induction v with
  | nil => intro _ _ h; exact absurd rfl h
  | cons c v ih =>
      intro h1 h2 _
      have hc : c ≠ '\n' := fun hh => h2 (hh ▸ List.mem_cons_self c v)
      cases v with
      | nil =>
          show V1.matchVersion [c, ']'] = some [c]
          rw [matchVersion_cons, if_neg hc]
          rfl
      | cons d v' =>
          have h1' : ']' ∉ d :: v' := fun hm => h1 (List.mem_cons_of_mem _ hm)
          have h2' : '\n' ∉ d :: v' := fun hm => h2 (List.mem_cons_of_mem _ hm)
          have ihv := ih h1' h2' (by simp)
          rw [List.cons_append, matchVersion_cons, if_neg hc, ihv]

/-- After the literal `] `, a name text without `[` or newline followed
by ` [` and a closing version is split exactly at that ` [` (the lazy
`name` group takes the shortest prefix). -/
theorem matchAfterBracket_shape :
    ∀ t vt v : List Char, '[' ∉ t → '\n' ∉ t →
      V1.matchVersion vt = some v →
      V1.matchAfterBracket (t ++ ' ' :: '[' :: vt) = some (t, v) := by
  intro t
  induction t with
  | nil =>
      intro vt v _ _ hm
      have htry : V1.tryBracketHere ' ' ('[' :: vt) = some ([], v) := by
        unfold V1.tryBracketHere
        rw [if_pos rfl]
        show (if '[' = '[' then (V1.matchVersion vt).map
            (fun v => (([] : List Char), v)) else none) = some ([], v)
        rw [if_pos rfl, hm]
        rfl
      rw [List.nil_append, matchAfterBracket_cons, htry]
  | cons c t ih =>
      intro vt v h1 h2 hm
      have hc : c ≠ '\n' := fun hh => h2 (hh ▸ List.mem_cons_self c t)
      have h1' : '[' ∉ t := fun hmem => h1 (List.mem_cons_of_mem _ hmem)
      have h2' : '\n' ∉ t := fun hmem => h2 (List.mem_cons_of_mem _ hmem)
      have ihr := ih vt v h1' h2' hm
      have htry : V1.tryBracketHere c (t ++ ' ' :: '[' :: vt) = none := by
        unfold V1.tryBracketHere
        by_cases hcs : c = ' '
        · rw [if_pos hcs]
          cases t with
          | nil =>
              show (if ' ' = '[' then (V1.matchVersion ('[' :: vt)).map
                  (fun v => (([] : List Char), v)) else none) = none
              exact if_neg (by decide)
          | cons d t' =>
              have hd : d ≠ '[' := fun hh => h1' (hh ▸ List.mem_cons_self d t')
              show (match d :: (t' ++ ' ' :: '[' :: vt) with
                    | r :: rest2 =>
                        if r = '[' then (V1.matchVersion rest2).map
                          (fun v => (([] : List Char), v))
                        else none
                    | [] => none) = none
              exact if_neg hd
        · rw [if_neg hcs]
      rw [List.cons_append, matchAfterBracket_cons, htry]
      show (if c = '\n' then none
            else
              match V1.matchAfterBracket (t ++ ' ' :: '[' :: vt) with
              | some p => some (c :: p.1, p.2)
              | none => none) = some (c :: t, v)
      rw [if_neg hc, ihr]

/-- The leftmost `] ` wins: text before the pattern containing no `]`
is skipped and a successful continuation match is returned as is. -/
theorem findMatch_from :
    ∀ (pre rest : List Char) (r : List Char × List Char), ']' ∉ pre →
      V1.matchAfterBracket rest = some r →
      V1.findMatch (pre ++ ']' :: ' ' :: rest) = some r := by
  intro pre
  induction pre with
  | nil =>
      intro rest r _ hm
      rw [List.nil_append, findMatch_cons, if_pos rfl]
      show (if ' ' = ' ' then
              match V1.matchAfterBracket rest with
              | some p => some p
              | none => V1.findMatch (' ' :: rest)
            else V1.findMatch (' ' :: rest)) = some r
      rw [if_pos rfl, hm]
  | cons c pre ih =>
      intro rest r hpre hm
      have hc : c ≠ ']' := fun hh => hpre (hh ▸ List.mem_cons_self c pre)
      have hpre' : ']' ∉ pre := fun hmem => hpre (List.mem_cons_of_mem _ hmem)
      rw [List.cons_append, findMatch_cons, if_neg hc]
      exact ih rest r hpre' hm

/-- Claim C7 counterexample: the display title `"Foo [1.2]"` has exactly
the spec's fixed shape `<title> [<version>]` (the spec-modelled
`specTitleShape` extracts `("Foo", "1.2")`), yet the code's regexp does
not match it — it demands a literal `] ` before the title — and
`parseData` on such an entry dies in an index-out-of-range panic on the
nil submatch slice (modelled `none`) instead of yielding a `ParseError`
value. -/
theorem title_shape_mismatch_cex :
    V1.specTitleShape ("Foo [1.2]".data) =
      some ("Foo".data, "1.2".data) ∧
    V1.goTitleRegexMatch "Foo [1.2]" = none ∧
    V1.badItem.title = "Foo [1.2]" ∧
    V1.parseData V1.badItem = none := by decide

/-- Claim C7 (corrected): the title matcher extracts against the shape
`"...] <title> [<version>]"` — the leftmost `] ` in the display title,
the lazy title group, and the greedy version group closed by the final
`]` — not against the whole-title shape `"<title> [<version>]"`.  For
any decomposition with no `]` before the pattern, no `[`/newline in the
title part and no `]`/newline in the non-empty version part, the match
returns exactly that title and version. -/
theorem goTitleRegexMatch_bracket_shape (pre t v : List Char)
    (hpre : ']' ∉ pre) (ht1 : '[' ∉ t) (ht2 : '\n' ∉ t)
    (hv1 : ']' ∉ v) (hv2 : '\n' ∉ v) (hv0 : v ≠ []) :
    V1.goTitleRegexMatch
        (String.mk
          (pre ++ ']' :: ' ' :: (t ++ ' ' :: '[' :: (v ++ [']'])))) =
      some (String.mk t, String.mk v) := by
  have h1 := matchVersion_closes v hv1 hv2 hv0
  have h2 := matchAfterBracket_shape t (v ++ [']']) v ht1 ht2 h1
  have h3 := findMatch_from pre (t ++ ' ' :: '[' :: (v ++ [']']))
    (t, v) hpre h2
  unfold V1.goTitleRegexMatch
  rw [show (String.mk
        (pre ++ ']' :: ' ' :: (t ++ ' ' :: '[' :: (v ++ [']'])))).data =
      pre ++ ']' :: ' ' :: (t ++ ' ' :: '[' :: (v ++ [']'])) from rfl, h3]
  rfl

/-- Witness for C7 (corrected): the title `"[VN] Bar [2.0]"` decomposes
as pre `"[VN"`, title `"Bar"`, version `"2.0"`, and the code's matcher
extracts exactly `("Bar", "2.0")`. -/
theorem goTitleRegexMatch_bracket_shape_witness :
    V1.goTitleRegexMatch
        (String.mk
          ("[VN".data ++ ']' :: ' ' ::
            ("Bar".data ++ ' ' :: '[' :: ("2.0".data ++ [']'])))) =
      some (String.mk "Bar".data, String.mk "2.0".data) :=
  goTitleRegexMatch_bracket_shape "[VN".data "Bar".data "2.0".data
    (by decide) (by decide) (by decide) (by decide) (by decide) (by decide)
